import Mathlib

/-!
Verification of the HOLO-EARTH gesture-to-manipulation pipeline.

The development shallowly embeds the pipeline of the repository:
the hand-tracker frame loop (pinch classification, pointer smoothing,
pointer-state update), the grab-and-drag rotation controller of the
globe component, and the pick / marker-placement geographic transforms.
Scalar quantities that the source manipulates as IEEE doubles are
modelled as exact rationals where only field arithmetic occurs, and as
real numbers where the source applies trigonometric functions.
-/

namespace HoloEarth

/-- One MediaPipe hand landmark: normalized image coordinates, `z` a
relative depth.  Matches the `HandLandmark` interface of the source. -/
structure Landmark where
  x : ℚ
  y : ℚ
  z : ℚ
deriving DecidableEq

/-- A detected hand: 21 landmarks addressed by index, as in
`results.landmarks[0]` of the source.  Only indices 4 (thumb tip) and
8 (index fingertip) are consumed. -/
def Hand : Type := Fin 21 → Landmark

/-- The shared pointer state `HandData` written once per processed
frame (`handDataRef.current`): smoothed coordinates plus the pinch
flag. -/
structure HandData where
  x : ℚ
  y : ℚ
  active : Bool
deriving DecidableEq

/-- Squared planar distance between the thumb-tip and index-fingertip
landmarks; the source computes
`Math.sqrt((tx-ix)^2 + (ty-iy)^2)` and only ever compares the root
against the pinch threshold, so the squared value carries the same
information (`z` is ignored exactly as in the source). -/
def pinchDistSq (thumbTip indexTip : Landmark) : ℚ :=
  (thumbTip.x - indexTip.x) ^ 2 + (thumbTip.y - indexTip.y) ^ 2

/-- Pinch classification of the source: `distance < 0.15` with a
strict comparison.  Over ℚ the equivalent squared comparison is used;
the bridge `sqrt d < 0.15 ↔ d < 0.15²` is proved in
`pinch_classifier_spec`. -/
def isPinching (thumbTip indexTip : Landmark) : Bool :=
  decide (pinchDistSq thumbTip indexTip < (3 / 20) ^ 2)

/-- One exponential-smoothing update with `alpha = 0.2`:
`smooth' = smooth + (raw - smooth) * alpha`, applied to each
coordinate, exactly as in the source. -/
def smoothStep (raw s : ℚ × ℚ) : ℚ × ℚ :=
  (s.1 + (raw.1 - s.1) * (1 / 5), s.2 + (raw.2 - s.2) * (1 / 5))

/-- The smoother iterated `n` frames against a fixed raw input. -/
def smoothIter (raw : ℚ × ℚ) : ℕ → ℚ × ℚ → ℚ × ℚ
  | 0, s => s
  | n + 1, s => smoothIter raw n (smoothStep raw s)

/-- What one frame of `predictWebcam` observes from the recognizer:
the call throws, returns no hand, or returns a hand. -/
inductive Detection where
  | throws : Detection
  | noHand : Detection
  | hand : Hand → Detection

/-- The per-frame mutable state of the hand tracker that the claims
concern: the smoother memory `prevHand` and the shared pointer state
`handDataRef.current`. -/
structure PredictState where
  prevHand : ℚ × ℚ
  handData : HandData
deriving DecidableEq

/-- Initial tracker state: `prevHand = (0.5, 0.5)` and
`handDataRef = { x: 0.5, y: 0.5, active: false }` as initialized in
the source. -/
def initialPredictState : PredictState :=
  ⟨(1 / 2, 1 / 2), ⟨1 / 2, 1 / 2, false⟩⟩

/-- One processed frame of `predictWebcam`:

* the `try` block throwing leaves every piece of state untouched (the
  `catch` only logs);
* a result with no landmarks overwrites `handDataRef` with
  `{ ...previous, active: false }`, preserving `x`, `y` and the
  smoother memory;
* a detected hand classifies the pinch from landmarks 4 and 8, smooths
  the mirrored index-fingertip coordinate (`rawX = 1 - indexTip.x`,
  `rawY = indexTip.y`) and publishes the smoothed point with the pinch
  flag. -/
def predictFrame (det : Detection) (s : PredictState) : PredictState :=
  match det with
  | .throws => s
  | .noHand => { s with handData := { s.handData with active := false } }
  | .hand h =>
      let thumbTip := h 4
      let indexTip := h 8
      let isP := isPinching thumbTip indexTip
      let rawX := 1 - indexTip.x
      let rawY := indexTip.y
      let sm := smoothStep (rawX, rawY) s.prevHand
      { prevHand := sm, handData := ⟨sm.1, sm.2, isP⟩ }

/-- Trace of tracker states over a list of frames (state after each
processed frame, in order). -/
def runFrames : List Detection → PredictState → List PredictState
  | [], _ => []
  | d :: ds, s =>
      let s1 := predictFrame d s
      s1 :: runFrames ds s1

/-- A concrete fully-pinched hand: every landmark at the image
center, so the thumb-index distance is zero. -/
def pinchHand : Hand := fun _ => ⟨1 / 2, 1 / 2, 0⟩

/-- Both the smoother memory and the published pointer coordinates of
a tracker state lie in the unit square. -/
def inUnitSquare (s : PredictState) : Prop :=
  0 ≤ s.prevHand.1 ∧ s.prevHand.1 ≤ 1 ∧
  0 ≤ s.prevHand.2 ∧ s.prevHand.2 ≤ 1 ∧
  0 ≤ s.handData.x ∧ s.handData.x ≤ 1 ∧
  0 ≤ s.handData.y ∧ s.handData.y ≤ 1

/-- The raw fingertip coordinates a detection offers to the smoother
lie in the unit square (trivially true for throwing or hand-free
frames, which do not invoke the smoother). -/
def fingertipInUnitSquare (d : Detection) : Prop :=
  ∀ h : Hand, d = .hand h →
    0 ≤ (h 8).x ∧ (h 8).x ≤ 1 ∧ 0 ≤ (h 8).y ∧ (h 8).y ≤ 1

/-- The per-frame state of the globe component used by `useFrame`:
the drag anchor `lastHandPos.current`, the group rotation (`yaw` is
`rotation.y`, `pitch` is `rotation.x`) and the cloud layer's own
rotation. -/
structure FrameState where
  lastHandPos : Option (ℚ × ℚ)
  yaw : ℚ
  pitch : ℚ
  clouds : ℚ
deriving DecidableEq

/-- One `useFrame` tick of the globe component.  `elapsed` is the
frame's `delta` time, `locationPinned` tells whether
`selectedLocation` is non-null.  Clouds advance by `delta * 0.02`
unconditionally.  If the pointer is active: on the first active frame
only the anchor is stored (early return, no rotation); afterwards the
frame-to-frame difference scaled by 10 is added to yaw and pitch and
the anchor is updated.  If inactive: the anchor is cleared and, unless
a location is pinned, idle auto-rotation `delta * 0.05` is applied to
yaw. -/
def useFrameStep (hand : HandData) (elapsed : ℚ) (locationPinned : Bool)
    (s : FrameState) : FrameState :=
  let s1 : FrameState := { s with clouds := s.clouds + elapsed * (1 / 50) }
  if hand.active then
    match s1.lastHandPos with
    | none => { s1 with lastHandPos := some (hand.x, hand.y) }
    | some last =>
        { s1 with
          lastHandPos := some (hand.x, hand.y)
          yaw := s1.yaw + (hand.x - last.1) * 10
          pitch := s1.pitch + (hand.y - last.2) * 10 }
  else
    { s1 with
      lastHandPos := none
      yaw := if locationPinned then s1.yaw else s1.yaw + elapsed * (1 / 20) }

/-- The drag delta a frame applies to the rotation, divided by the
sensitivity 10 — i.e. the gesture tracker's emitted delta.  An
inactive frame emits nothing; the first active frame stores the anchor
and returns before rotating, so its applied delta is zero; every later
active frame applies the frame-to-frame difference of pointer
positions.  Grounded against `useFrameStep` in the claim theorems. -/
def emittedDelta (hand : HandData) (anchor : Option (ℚ × ℚ)) :
    Option (ℚ × ℚ) :=
  if hand.active then
    match anchor with
    | none => some (0, 0)
    | some last => some (hand.x - last.1, hand.y - last.2)
  else none

/-- Anchor evolution of `useFrame`: any active frame stores the
current pointer position, any inactive frame clears the anchor. -/
def nextAnchor (hand : HandData) (_anchor : Option (ℚ × ℚ)) :
    Option (ℚ × ℚ) :=
  if hand.active then some (hand.x, hand.y) else none

/-- Emitted deltas over a list of frames, threading the anchor. -/
def dragDeltas : List HandData → Option (ℚ × ℚ) → List (Option (ℚ × ℚ))
  | [], _ => []
  | hd :: rest, anchor =>
      emittedDelta hd anchor :: dragDeltas rest (nextAnchor hd anchor)

/-- A 3D vector, as `THREE.Vector3` restricted to the operations the
pick path uses. -/
structure Vec3 where
  x : ℝ
  y : ℝ
  z : ℝ

/-- Euclidean length of a `Vec3`. -/
noncomputable def norm3 (v : Vec3) : ℝ :=
  Real.sqrt (v.x ^ 2 + v.y ^ 2 + v.z ^ 2)

/-- `THREE.Vector3.normalize`, which divides by `length() || 1`: a
vector of length zero is divided by 1, i.e. left unchanged (no NaN is
produced). -/
noncomputable def normalize3 (v : Vec3) : Vec3 :=
  if norm3 v = 0 then v
  else ⟨v.x / norm3 v, v.y / norm3 v, v.z / norm3 v⟩

/-- JavaScript `Math.atan2(y, x)` on real (non-NaN, unsigned-zero)
inputs: the principal angle of the point `(x, y)`, in `(-π, π]`, with
`atan2 0 0 = 0`. -/
noncomputable def atan2 (y x : ℝ) : ℝ :=
  if 0 < x then Real.arctan (y / x)
  else if x < 0 then
    if 0 ≤ y then Real.arctan (y / x) + Real.pi
    else Real.arctan (y / x) - Real.pi
  else
    if 0 < y then Real.pi / 2
    else if y < 0 then -(Real.pi / 2)
    else 0

/-- The pick transform of `handlePointerDown`: normalize the local
pick point, take `phi = acos(y)`, `theta = atan2(x, z)`, and convert
to degrees (`lat = 90 - phi·180/π`, `lon = theta·180/π`). -/
noncomputable def pickToGeo (localPoint : Vec3) : ℝ × ℝ :=
  let v := normalize3 localPoint
  let phi := Real.arccos v.y
  let theta := atan2 v.x v.z
  (90 - phi * 180 / Real.pi, theta * 180 / Real.pi)

/-- `handlePointerDown` itself: when the earth group exists it always
converts the local point and calls `onLocationSelect` with the result;
there is no degenerate-geometry branch that could discard a pick. -/
noncomputable def handlePointerDown (earthExists : Bool) (localPoint : Vec3) :
    Option (ℝ × ℝ) :=
  if earthExists then some (pickToGeo localPoint) else none

/-- Marker placement of `LocationMarker` in the source: the geo → 3D
formulas at radius `2.02`, with `phi = (90 - lat)·π/180` and
`theta = lon·π/180`. -/
noncomputable def markerPosition (lat lon : ℝ) : Vec3 :=
  ⟨101 / 50 * Real.sin ((90 - lat) * Real.pi / 180) *
      Real.sin (lon * Real.pi / 180),
    101 / 50 * Real.cos ((90 - lat) * Real.pi / 180),
    101 / 50 * Real.sin ((90 - lat) * Real.pi / 180) *
      Real.cos (lon * Real.pi / 180)⟩

/-! Theorems. -/

/-- Cast of the squared pinch distance to the reals is the squared
planar distance of the source's `Math.sqrt` argument. -/
theorem pinchDistSq_cast (t i : Landmark) :
    ((pinchDistSq t i : ℚ) : ℝ) =
      ((t.x : ℝ) - (i.x : ℝ)) ^ 2 + ((t.y : ℝ) - (i.y : ℝ)) ^ 2 := by
  push_cast [pinchDistSq]
  ring

/-- C5: the pinch classifier computes the planar thumb-tip /
index-fingertip distance `d = sqrt((tx-ix)² + (ty-iy)²)` (z ignored)
over landmarks 4 and 8 and classifies `isPinching = d < 0.15` with a
strict comparison: a hand processed by `predictFrame` gets its
`active` flag from exactly this classifier applied to landmarks 4 and
8, a distance of exactly 0.15 classifies as not pinching, and 0.1499
classifies as pinching. -/
theorem pinch_classifier_spec :
    (∀ t i : Landmark,
      isPinching t i = true ↔
        Real.sqrt (((t.x : ℝ) - (i.x : ℝ)) ^ 2 + ((t.y : ℝ) - (i.y : ℝ)) ^ 2)
          < 3 / 20) ∧
    (∀ (h : Hand) (s : PredictState),
      (predictFrame (.hand h) s).handData.active = isPinching (h 4) (h 8)) ∧
    isPinching ⟨3 / 20, 0, 0⟩ ⟨0, 0, 0⟩ = false ∧
    isPinching ⟨1499 / 10000, 0, 0⟩ ⟨0, 0, 0⟩ = true := by
  refine ⟨fun t i => ?_, fun h s => rfl, by norm_num [isPinching, pinchDistSq],
    by norm_num [isPinching, pinchDistSq]⟩
  have hc : ((3 / 20 : ℚ) : ℝ) = 3 / 20 := by norm_num
  rw [isPinching, decide_eq_true_eq, ← pinchDistSq_cast,
    Real.sqrt_lt' (by norm_num : (0 : ℝ) < 3 / 20), ← hc, ← Rat.cast_pow,
    Rat.cast_lt]

/-- C2 counterexample: process a pinching hand, then a frame whose
detection throws.  The source's `catch` only logs, leaving
`handDataRef` untouched, so `active` remains `true` even though the
throwing frame detected no hand — contradicting the claim that such a
frame yields `active = false`. -/
theorem throwing_frame_keeps_active :
    (predictFrame .throws
        (predictFrame (.hand pinchHand) initialPredictState)).handData.active
      = true := by
  norm_num [predictFrame, initialPredictState, pinchHand, isPinching,
    pinchDistSq, smoothStep]

/-- C2 amended: after a completed (non-throwing) frame, `active` holds
iff the frame detected a hand that the classifier marked pinching; a
hand-free frame forces `active = false` while preserving the published
`x`, `y` and the smoother memory; a throwing frame leaves the whole
tracker state unchanged (so `active` keeps its previous value rather
than being forced to `false`). -/
theorem pointer_active_invariant (s : PredictState) (h : Hand) :
    (predictFrame .noHand s).handData.active = false ∧
    (predictFrame .noHand s).handData.x = s.handData.x ∧
    (predictFrame .noHand s).handData.y = s.handData.y ∧
    (predictFrame .noHand s).prevHand = s.prevHand ∧
    (predictFrame (.hand h) s).handData.active = isPinching (h 4) (h 8) ∧
    predictFrame .throws s = s :=
  ⟨rfl, rfl, rfl, rfl, rfl, rfl⟩

/-- C4 counterexample: holding the raw target (0.9, 0.1) for 20 frames
from smoothed state (0.5, 0.5) leaves both coordinates more than 1e-3
away from the target (the exact distance is 0.4·0.8²⁰ ≈ 4.6e-3), so
the claimed 1e-3 bound after 20 frames fails. -/
theorem smoothing_20_frames_exceeds_1e3 :
    |9 / 10 - (smoothIter (9 / 10, 1 / 10) 20 (1 / 2, 1 / 2)).1| > 1 / 1000 ∧
    |1 / 10 - (smoothIter (9 / 10, 1 / 10) 20 (1 / 2, 1 / 2)).2| > 1 / 1000 := by
  constructor <;> norm_num [smoothIter, smoothStep, lt_abs]

/-- C4 amended: with `alpha = 0.2` each smoothing update shrinks the
signed and absolute distance to a held raw value by the exact factor
`1 - alpha = 0.8`; after 20 frames of the step input from (0.5, 0.5)
toward (0.9, 0.1) the smoothed value is within 5e-3 (not 1e-3) of the
target, and the 1e-3 bound is reached by frame 27. -/
theorem smoothing_convergence :
    (∀ raw s : ℚ × ℚ,
      raw.1 - (smoothStep raw s).1 = 4 / 5 * (raw.1 - s.1) ∧
      raw.2 - (smoothStep raw s).2 = 4 / 5 * (raw.2 - s.2) ∧
      |raw.1 - (smoothStep raw s).1| = 4 / 5 * |raw.1 - s.1| ∧
      |raw.2 - (smoothStep raw s).2| = 4 / 5 * |raw.2 - s.2|) ∧
    |9 / 10 - (smoothIter (9 / 10, 1 / 10) 20 (1 / 2, 1 / 2)).1| < 5 / 1000 ∧
    |1 / 10 - (smoothIter (9 / 10, 1 / 10) 20 (1 / 2, 1 / 2)).2| < 5 / 1000 ∧
    |9 / 10 - (smoothIter (9 / 10, 1 / 10) 27 (1 / 2, 1 / 2)).1| < 1 / 1000 ∧
    |1 / 10 - (smoothIter (9 / 10, 1 / 10) 27 (1 / 2, 1 / 2)).2| < 1 / 1000 := by
  refine ⟨fun raw s => ?_, ?_, ?_, ?_, ?_⟩
  · have e1 : raw.1 - (smoothStep raw s).1 = 4 / 5 * (raw.1 - s.1) := by
      simp only [smoothStep]
      ring
    have e2 : raw.2 - (smoothStep raw s).2 = 4 / 5 * (raw.2 - s.2) := by
      simp only [smoothStep]
      ring
    refine ⟨e1, e2, ?_, ?_⟩
    · rw [e1, abs_mul, abs_of_pos (by norm_num : (0 : ℚ) < 4 / 5)]
    · rw [e2, abs_mul, abs_of_pos (by norm_num : (0 : ℚ) < 4 / 5)]
  all_goals norm_num [smoothIter, smoothStep, abs_lt]

/-- One smoothing update keeps the pointer inside the unit square as
long as the raw input is inside it: the update is a convex
combination with weights 4/5 and 1/5. -/
theorem smoothStep_mem_unit (raw s : ℚ × ℚ)
    (hr1 : 0 ≤ raw.1) (hr2 : raw.1 ≤ 1) (hr3 : 0 ≤ raw.2) (hr4 : raw.2 ≤ 1)
    (hs1 : 0 ≤ s.1) (hs2 : s.1 ≤ 1) (hs3 : 0 ≤ s.2) (hs4 : s.2 ≤ 1) :
    0 ≤ (smoothStep raw s).1 ∧ (smoothStep raw s).1 ≤ 1 ∧
    0 ≤ (smoothStep raw s).2 ∧ (smoothStep raw s).2 ≤ 1 := by
  simp only [smoothStep]
  refine ⟨by linarith, by linarith, by linarith, by linarith⟩

/-- A processed frame preserves the unit-square invariant of the
tracker state, provided any detected fingertip is inside the unit
square. -/
theorem predictFrame_inUnitSquare (d : Detection) (s : PredictState)
    (hs : inUnitSquare s) (hd : fingertipInUnitSquare d) :
    inUnitSquare (predictFrame d s) := by
  obtain ⟨h1, h2, h3, h4, h5, h6, h7, h8⟩ := hs
  cases d with
  | throws => exact ⟨h1, h2, h3, h4, h5, h6, h7, h8⟩
  | noHand => exact ⟨h1, h2, h3, h4, h5, h6, h7, h8⟩
  | hand h =>
      obtain ⟨k1, k2, k3, k4⟩ := hd h rfl
      have hb := smoothStep_mem_unit (1 - (h 8).x, (h 8).y) s.prevHand
        (by simpa using k2) (by simpa using k1) k3 k4 h1 h2 h3 h4
      exact ⟨hb.1, hb.2.1, hb.2.2.1, hb.2.2.2,
        hb.1, hb.2.1, hb.2.2.1, hb.2.2.2⟩

/-- Every state of a frame trace keeps the unit-square invariant. -/
theorem runFrames_inUnitSquare (ds : List Detection) (s : PredictState)
    (hs : inUnitSquare s) (hd : ∀ d ∈ ds, fingertipInUnitSquare d) :
    ∀ t ∈ runFrames ds s, inUnitSquare t := by
  induction ds generalizing s with
  | nil =>
      intro t ht
      simp [runFrames] at ht
  | cons d ds ih =>
      intro t ht
      simp only [runFrames, List.mem_cons] at ht
      have hstep := predictFrame_inUnitSquare d s hs
        (hd d (List.mem_cons_self d ds))
      rcases ht with rfl | ht
      · exact hstep
      · exact ih (predictFrame d s) hstep
          (fun d' hd' => hd d' (List.mem_cons_of_mem _ hd')) t ht

/-- C10: starting from the initial smoother state (0.5, 0.5), if every
detected frame's raw fingertip coordinates lie in [0,1] (so the
mirrored `rawX = 1 - indexTip.x` does too), then every smoothed point
the tracker stores and publishes stays inside the unit square. -/
theorem smoothed_in_unit_square (ds : List Detection)
    (hd : ∀ d ∈ ds, fingertipInUnitSquare d) :
    ∀ t ∈ runFrames ds initialPredictState, inUnitSquare t :=
  runFrames_inUnitSquare ds initialPredictState
    (by norm_num [initialPredictState, inUnitSquare]) hd

/-- Witness for `smoothed_in_unit_square`: the state after one
concrete hand frame stays inside the unit square. -/
theorem smoothed_in_unit_square_witness :
    inUnitSquare
      (predictFrame (Detection.hand pinchHand) initialPredictState) :=
  smoothed_in_unit_square [Detection.hand pinchHand]
    (by
      intro d hdm
      simp only [List.mem_cons, List.not_mem_nil, or_false] at hdm
      subst hdm
      intro h heq
      injection heq with e
      subst e
      norm_num [pinchHand])
    (predictFrame (Detection.hand pinchHand) initialPredictState)
    (by simp [runFrames])

/-- C1: on the frame sequence [inactive, active, active, active] with
pointer positions [_, (0.5,0.5), (0.6,0.5), (0.6,0.6)] the emitted
drag deltas are [none, (0,0), (0.1,0), (0,0.1)]; in general the entry
frame of a grab records the anchor and applies zero rotation (the
source stores the position and returns before rotating), and every
later active frame emits the frame-to-frame difference of pointer
positions, which `useFrameStep` applies with sensitivity 10. -/
theorem no_jump_on_grab :
    dragDeltas
        [⟨1 / 2, 1 / 2, false⟩, ⟨1 / 2, 1 / 2, true⟩,
          ⟨3 / 5, 1 / 2, true⟩, ⟨3 / 5, 3 / 5, true⟩] none =
      [none, some (0, 0), some (1 / 10, 0), some (0, 1 / 10)] ∧
    (∀ hand : HandData, hand.active = true →
      emittedDelta hand none = some (0, 0) ∧
      nextAnchor hand none = some (hand.x, hand.y)) ∧
    (∀ (hand : HandData) (elapsed : ℚ) (pin : Bool) (s : FrameState),
      hand.active = true → s.lastHandPos = none →
      (useFrameStep hand elapsed pin s).yaw = s.yaw ∧
      (useFrameStep hand elapsed pin s).pitch = s.pitch ∧
      (useFrameStep hand elapsed pin s).lastHandPos = some (hand.x, hand.y)) ∧
    (∀ (hand : HandData) (a : ℚ × ℚ) (elapsed : ℚ) (pin : Bool)
        (s : FrameState),
      hand.active = true → s.lastHandPos = some a →
      emittedDelta hand (some a) = some (hand.x - a.1, hand.y - a.2) ∧
      (useFrameStep hand elapsed pin s).yaw = s.yaw + (hand.x - a.1) * 10 ∧
      (useFrameStep hand elapsed pin s).pitch
        = s.pitch + (hand.y - a.2) * 10) := by
  refine ⟨?_, ?_, ?_, ?_⟩
  · norm_num [dragDeltas, emittedDelta, nextAnchor]
  · intro hand hact
    simp [emittedDelta, nextAnchor, hact]
  · intro hand elapsed pin s hact hanchor
    simp [useFrameStep, hact, hanchor]
  · intro hand a elapsed pin s hact hanchor
    simp [useFrameStep, emittedDelta, hact, hanchor]

/-- Witness for `no_jump_on_grab` at concrete inputs. -/
theorem no_jump_on_grab_witness :
    emittedDelta ⟨3 / 10, 2 / 5, true⟩ none = some (0, 0) ∧
    (useFrameStep ⟨3 / 10, 2 / 5, true⟩ (1 / 60) false ⟨none, 0, 0, 0⟩).yaw
      = 0 ∧
    emittedDelta ⟨3 / 10, 2 / 5, true⟩ (some (1 / 4, 2 / 5))
      = some (3 / 10 - 1 / 4, 2 / 5 - 2 / 5) :=
  ⟨(no_jump_on_grab.2.1 ⟨3 / 10, 2 / 5, true⟩ rfl).1,
    (no_jump_on_grab.2.2.1 ⟨3 / 10, 2 / 5, true⟩ (1 / 60) false
      ⟨none, 0, 0, 0⟩ rfl rfl).1,
    (no_jump_on_grab.2.2.2 ⟨3 / 10, 2 / 5, true⟩ (1 / 4, 2 / 5) (1 / 60) false
      ⟨some (1 / 4, 2 / 5), 0, 0, 0⟩ rfl rfl).1⟩

/-- C7: on an inactive frame the anchor-free globe keeps the idle
auto-rotation `yaw += elapsed * 0.05` only while no location is
pinned; with a pinned location both angles are left unchanged; and an
active dragging frame still rotates the globe even when a location is
pinned. -/
theorem idle_rotation_policy (hand : HandData) (elapsed : ℚ) (s : FrameState) :
    (hand.active = false →
      ((useFrameStep hand elapsed false s).yaw
          = s.yaw + elapsed * (1 / 20) ∧
        (useFrameStep hand elapsed false s).pitch = s.pitch) ∧
      ((useFrameStep hand elapsed true s).yaw = s.yaw ∧
        (useFrameStep hand elapsed true s).pitch = s.pitch)) ∧
    (∀ last : ℚ × ℚ, hand.active = true → s.lastHandPos = some last →
      (useFrameStep hand elapsed true s).yaw
        = s.yaw + (hand.x - last.1) * 10 ∧
      (useFrameStep hand elapsed true s).pitch
        = s.pitch + (hand.y - last.2) * 10) := by
  constructor
  · intro hact
    constructor <;> constructor <;> simp [useFrameStep, hact]
  · intro last hact hanchor
    constructor <;> simp [useFrameStep, hact, hanchor]

/-- Witness for `idle_rotation_policy` at concrete inputs. -/
theorem idle_rotation_policy_witness :
    ((useFrameStep ⟨1 / 2, 1 / 2, false⟩ (1 / 60) false ⟨none, 0, 0, 0⟩).yaw
        = 0 + 1 / 60 * (1 / 20) ∧
      (useFrameStep ⟨1 / 2, 1 / 2, false⟩ (1 / 60) false
        ⟨none, 0, 0, 0⟩).pitch = 0) ∧
    (useFrameStep ⟨1 / 2, 1 / 2, false⟩ (1 / 60) true ⟨none, 0, 0, 0⟩).yaw
      = 0 ∧
    (useFrameStep ⟨3 / 5, 1 / 2, true⟩ (1 / 60) true
        ⟨some (1 / 2, 1 / 2), 0, 0, 0⟩).yaw = 0 + (3 / 5 - 1 / 2) * 10 :=
  ⟨((idle_rotation_policy ⟨1 / 2, 1 / 2, false⟩ (1 / 60)
        ⟨none, 0, 0, 0⟩).1 rfl).1,
    ((idle_rotation_policy ⟨1 / 2, 1 / 2, false⟩ (1 / 60)
        ⟨none, 0, 0, 0⟩).1 rfl).2.1,
    ((idle_rotation_policy ⟨3 / 5, 1 / 2, true⟩ (1 / 60)
        ⟨some (1 / 2, 1 / 2), 0, 0, 0⟩).2 (1 / 2, 1 / 2) rfl rfl).1⟩

/-- C8: an active frame with a stored anchor adds `delta.x * 10` to
yaw and `delta.y * 10` to pitch, with no clamping of either angle (the
equality holds for all states and deltas); a delta of (0.05, 0)
increases yaw by exactly 0.5. -/
theorem drag_rotation_sensitivity (hand : HandData) (elapsed : ℚ) (pin : Bool)
    (s : FrameState) (last : ℚ × ℚ)
    (hact : hand.active = true) (hanchor : s.lastHandPos = some last) :
    (useFrameStep hand elapsed pin s).yaw = s.yaw + (hand.x - last.1) * 10 ∧
    (useFrameStep hand elapsed pin s).pitch
      = s.pitch + (hand.y - last.2) * 10 ∧
    (hand.x - last.1 = 1 / 20 ∧ hand.y - last.2 = 0 →
      (useFrameStep hand elapsed pin s).yaw = s.yaw + 1 / 2 ∧
      (useFrameStep hand elapsed pin s).pitch = s.pitch) := by
  refine ⟨by simp [useFrameStep, hact, hanchor], by
    simp [useFrameStep, hact, hanchor], fun hdelta => ?_⟩
  constructor <;> norm_num [useFrameStep, hact, hanchor, hdelta.1, hdelta.2]

/-- Witness for `drag_rotation_sensitivity` at a concrete input with
delta (0.05, 0). -/
theorem drag_rotation_sensitivity_witness :
    (useFrameStep ⟨11 / 20, 1 / 2, true⟩ (1 / 60) false
        ⟨some (1 / 2, 1 / 2), 0, 0, 0⟩).yaw = 0 + 1 / 2 ∧
    (useFrameStep ⟨11 / 20, 1 / 2, true⟩ (1 / 60) false
        ⟨some (1 / 2, 1 / 2), 0, 0, 0⟩).pitch = 0 :=
  (drag_rotation_sensitivity ⟨11 / 20, 1 / 2, true⟩ (1 / 60) false
      ⟨some (1 / 2, 1 / 2), 0, 0, 0⟩ (1 / 2, 1 / 2) rfl rfl).2.2
    ⟨by norm_num, by norm_num⟩

/-- C9: an inactive frame clears the drag anchor and emits no delta,
and after a release the next grab anchors at the new pointer position
and applies no rotation on its entry frame — no residual delta leaks
across a release / re-grab cycle. -/
theorem release_regrab_no_leak (h1 h2 : HandData) (e1 e2 : ℚ) (p1 p2 : Bool)
    (s : FrameState) (hrel : h1.active = false) (hgrab : h2.active = true) :
    (useFrameStep h1 e1 p1 s).lastHandPos = none ∧
    emittedDelta h1 s.lastHandPos = none ∧
    (useFrameStep h2 e2 p2 (useFrameStep h1 e1 p1 s)).lastHandPos
      = some (h2.x, h2.y) ∧
    (useFrameStep h2 e2 p2 (useFrameStep h1 e1 p1 s)).yaw
      = (useFrameStep h1 e1 p1 s).yaw ∧
    (useFrameStep h2 e2 p2 (useFrameStep h1 e1 p1 s)).pitch
      = (useFrameStep h1 e1 p1 s).pitch := by
  have hclear : (useFrameStep h1 e1 p1 s).lastHandPos = none := by
    simp [useFrameStep, hrel]
  have hdelta : emittedDelta h1 s.lastHandPos = none := by
    simp [emittedDelta, hrel]
  generalize useFrameStep h1 e1 p1 s = t at hclear ⊢
  refine ⟨hclear, hdelta, ?_, ?_, ?_⟩ <;> simp [useFrameStep, hgrab, hclear]

/-- Witness for `release_regrab_no_leak` on a concrete release /
re-grab pair. -/
theorem release_regrab_no_leak_witness :
    (useFrameStep ⟨2 / 5, 2 / 5, false⟩ (1 / 60) false
        ⟨some (1 / 2, 1 / 2), 0, 0, 0⟩).lastHandPos = none ∧
    (useFrameStep ⟨7 / 10, 3 / 10, true⟩ (1 / 60) false
        (useFrameStep ⟨2 / 5, 2 / 5, false⟩ (1 / 60) false
          ⟨some (1 / 2, 1 / 2), 0, 0, 0⟩)).lastHandPos
      = some (7 / 10, 3 / 10) ∧
    (useFrameStep ⟨7 / 10, 3 / 10, true⟩ (1 / 60) false
        (useFrameStep ⟨2 / 5, 2 / 5, false⟩ (1 / 60) false
          ⟨some (1 / 2, 1 / 2), 0, 0, 0⟩)).yaw
      = (useFrameStep ⟨2 / 5, 2 / 5, false⟩ (1 / 60) false
          ⟨some (1 / 2, 1 / 2), 0, 0, 0⟩).yaw :=
  ⟨(release_regrab_no_leak ⟨2 / 5, 2 / 5, false⟩ ⟨7 / 10, 3 / 10, true⟩
      (1 / 60) (1 / 60) false false ⟨some (1 / 2, 1 / 2), 0, 0, 0⟩
      rfl rfl).1,
    (release_regrab_no_leak ⟨2 / 5, 2 / 5, false⟩ ⟨7 / 10, 3 / 10, true⟩
      (1 / 60) (1 / 60) false false ⟨some (1 / 2, 1 / 2), 0, 0, 0⟩
      rfl rfl).2.2.1,
    (release_regrab_no_leak ⟨2 / 5, 2 / 5, false⟩ ⟨7 / 10, 3 / 10, true⟩
      (1 / 60) (1 / 60) false false ⟨some (1 / 2, 1 / 2), 0, 0, 0⟩
      rfl rfl).2.2.2.1⟩

/-- For a point with positive planar radius written in polar form, the
JavaScript-style `atan2` recovers the angle exactly on `(-π, π]`. -/
theorem atan2_sin_cos (s θ : ℝ) (hs : 0 < s) (h1 : -Real.pi < θ)
    (h2 : θ ≤ Real.pi) : atan2 (s * Real.sin θ) (s * Real.cos θ) = θ := by
  have hπ := Real.pi_pos
  have hdiv : Real.cos θ ≠ 0 →
      s * Real.sin θ / (s * Real.cos θ) = Real.tan θ := by
    intro hc
    rw [mul_div_mul_left _ _ (ne_of_gt hs), Real.tan_eq_sin_div_cos]
  rcases lt_trichotomy (Real.cos θ) 0 with hc | hc | hc
  · have hx : s * Real.cos θ < 0 := mul_neg_of_pos_of_neg hs hc
    rcases le_or_lt 0 (Real.sin θ) with hsin | hsin
    · have hθgt : Real.pi / 2 < θ := by
        by_contra hle
        push_neg at hle
        have hge : -(Real.pi / 2) ≤ θ := by
          by_contra hlt
          push_neg at hlt
          have : Real.sin θ < 0 :=
            Real.sin_neg_of_neg_of_neg_pi_lt (by linarith) h1
          linarith
        have := Real.cos_nonneg_of_neg_pi_div_two_le_of_le hge hle
        linarith
      rw [atan2, if_neg (by linarith), if_pos hx,
        if_pos (mul_nonneg hs.le hsin), hdiv (ne_of_lt hc)]
      have htan : Real.tan θ = Real.tan (θ - Real.pi) :=
        (Real.tan_periodic.sub_eq θ).symm
      rw [htan, Real.arctan_tan (by linarith) (by linarith)]
      ring
    · have hθlt : θ < -(Real.pi / 2) := by
        by_contra hge
        push_neg at hge
        have hle : θ ≤ Real.pi / 2 := by
          by_contra hgt
          push_neg at hgt
          have : 0 ≤ Real.sin θ :=
            Real.sin_nonneg_of_nonneg_of_le_pi (by linarith) h2
          linarith
        have := Real.cos_nonneg_of_neg_pi_div_two_le_of_le hge hle
        linarith
      have hy : s * Real.sin θ < 0 := mul_neg_of_pos_of_neg hs hsin
      rw [atan2, if_neg (by linarith), if_pos hx, if_neg (by linarith),
        hdiv (ne_of_lt hc)]
      have htan : Real.tan θ = Real.tan (θ + Real.pi) :=
        (Real.tan_periodic θ).symm
      rw [htan, Real.arctan_tan (by linarith) (by linarith)]
      ring
  · have hx : s * Real.cos θ = 0 := by rw [hc, mul_zero]
    obtain ⟨k, hk⟩ := Real.cos_eq_zero_iff.mp hc
    have hkb : (-2 : ℝ) < 2 * (k : ℝ) + 1 ∧ (2 * (k : ℝ) + 1) ≤ 2 := by
      constructor <;> nlinarith [hk, h1, h2, hπ]
    have hkz : k = 0 ∨ k = -1 := by
      have hb1 : (-2 : ℤ) < 2 * k + 1 := by exact_mod_cast hkb.1
      have hb2 : (2 * k + 1 : ℤ) ≤ 2 := by exact_mod_cast hkb.2
      omega
    rcases hkz with rfl | rfl
    · have hθ : θ = Real.pi / 2 := by rw [hk]; ring
      subst hθ
      rw [atan2, if_neg (by rw [hx]; exact lt_irrefl 0), if_neg (by
        rw [hx]; exact lt_irrefl 0), if_pos (by
          rw [Real.sin_pi_div_two, mul_one]; exact hs)]
    · have hθ : θ = -(Real.pi / 2) := by rw [hk]; push_cast; ring
      subst hθ
      rw [atan2, if_neg (by rw [hx]; exact lt_irrefl 0), if_neg (by
        rw [hx]; exact lt_irrefl 0), if_neg (by
          rw [Real.sin_neg, Real.sin_pi_div_two, mul_neg, mul_one]
          linarith), if_pos (by
          rw [Real.sin_neg, Real.sin_pi_div_two, mul_neg, mul_one]
          linarith)]
  · have hθ1 : -(Real.pi / 2) < θ := by
      by_contra hle
      push_neg at hle
      have hcn : Real.cos (-θ) ≤ 0 :=
        Real.cos_nonpos_of_pi_div_two_le_of_le (by linarith) (by linarith)
      rw [Real.cos_neg] at hcn
      linarith
    have hθ2 : θ < Real.pi / 2 := by
      by_contra hge
      push_neg at hge
      have hcn : Real.cos θ ≤ 0 :=
        Real.cos_nonpos_of_pi_div_two_le_of_le hge (by linarith)
      linarith
    rw [atan2, if_pos (mul_pos hs hc), hdiv (ne_of_gt hc),
      Real.arctan_tan hθ1 hθ2]

/-- A marker placed by the geo → 3D formulas lies at distance 2.02
from the origin, for every latitude and longitude. -/
theorem norm3_markerPosition (lat lon : ℝ) :
    norm3 (markerPosition lat lon) = 101 / 50 := by
  have hφ := Real.sin_sq_add_cos_sq ((90 - lat) * Real.pi / 180)
  have hθ := Real.sin_sq_add_cos_sq (lon * Real.pi / 180)
  rw [norm3, markerPosition]
  rw [show (101 / 50 * Real.sin ((90 - lat) * Real.pi / 180) *
        Real.sin (lon * Real.pi / 180)) ^ 2 +
      (101 / 50 * Real.cos ((90 - lat) * Real.pi / 180)) ^ 2 +
      (101 / 50 * Real.sin ((90 - lat) * Real.pi / 180) *
        Real.cos (lon * Real.pi / 180)) ^ 2 = (101 / 50) ^ 2 from by
    linear_combination
      ((101 / 50) ^ 2 * Real.sin ((90 - lat) * Real.pi / 180) ^ 2) * hθ +
        (101 / 50) ^ 2 * hφ]
  rw [Real.sqrt_sq (by norm_num)]

/-- JavaScript semantics at the undefined point: `Math.atan2(0, 0)`
returns 0. -/
theorem atan2_zero_zero : atan2 0 0 = 0 := by
  rw [atan2, if_neg (lt_irrefl 0), if_neg (lt_irrefl 0),
    if_neg (lt_irrefl 0), if_neg (lt_irrefl 0)]

/-- C3 amended: for latitudes strictly between the poles and
`lon ∈ (-180, 180]`, placing a marker and picking it back returns the
original coordinates exactly (hence within 1e-6 degrees); at the poles
themselves the longitude is not recovered (see the counterexample). -/
theorem geo_roundtrip (lat lon : ℝ) (hlat1 : -90 < lat) (hlat2 : lat < 90)
    (hlon1 : -180 < lon) (hlon2 : lon ≤ 180) :
    pickToGeo (markerPosition lat lon) = (lat, lon) := by
  have hπ := Real.pi_pos
  have hφ1 : 0 < (90 - lat) * Real.pi / 180 := by
    apply div_pos (mul_pos (by linarith) hπ) (by norm_num)
  have hφ2 : (90 - lat) * Real.pi / 180 < Real.pi := by
    rw [div_lt_iff₀ (by norm_num : (0:ℝ) < 180)]
    nlinarith
  have hθ1 : -Real.pi < lon * Real.pi / 180 := by
    rw [neg_lt, ← neg_div, ← neg_mul]
    rw [div_lt_iff₀ (by norm_num : (0:ℝ) < 180)]
    nlinarith
  have hθ2 : lon * Real.pi / 180 ≤ Real.pi := by
    rw [div_le_iff₀ (by norm_num : (0:ℝ) < 180)]
    nlinarith
  have hsinφ : 0 < Real.sin ((90 - lat) * Real.pi / 180) :=
    Real.sin_pos_of_pos_of_lt_pi hφ1 hφ2
  have hnorm := norm3_markerPosition lat lon
  have hne : norm3 (markerPosition lat lon) ≠ 0 := by
    rw [hnorm]; norm_num
  rw [pickToGeo, normalize3, if_neg hne, hnorm]
  simp only [markerPosition]
  rw [show 101 / 50 * Real.cos ((90 - lat) * Real.pi / 180) / (101 / 50)
      = Real.cos ((90 - lat) * Real.pi / 180) from by ring]
  rw [show 101 / 50 * Real.sin ((90 - lat) * Real.pi / 180) *
        Real.sin (lon * Real.pi / 180) / (101 / 50)
      = Real.sin ((90 - lat) * Real.pi / 180) *
        Real.sin (lon * Real.pi / 180) from by ring]
  rw [show 101 / 50 * Real.sin ((90 - lat) * Real.pi / 180) *
        Real.cos (lon * Real.pi / 180) / (101 / 50)
      = Real.sin ((90 - lat) * Real.pi / 180) *
        Real.cos (lon * Real.pi / 180) from by ring]
  rw [Real.arccos_cos hφ1.le hφ2.le]
  rw [atan2_sin_cos _ _ hsinφ hθ1 hθ2]
  rw [Prod.mk.injEq]
  constructor
  · field_simp
  · field_simp

/-- Witness for `geo_roundtrip` at (30, 120). -/
theorem geo_roundtrip_witness :
    pickToGeo (markerPosition 30 120) = (30, 120) :=
  geo_roundtrip 30 120 (by norm_num) (by norm_num) (by norm_num)
    (by norm_num)

/-- C3 counterexample: at the north pole with lon = 90 the marker is
placed at (0, 2.02, 0); the pick recovers lat = 90 but
`atan2(0, 0) = 0` loses the longitude entirely, an error of 90
degrees — far beyond the claimed 1e-6 tolerance, although (90, 90) is
inside the claimed range `lat ∈ [-90, 90]`, `lon ∈ (-180, 180]`. -/
theorem geo_roundtrip_pole_counterexample :
    pickToGeo (markerPosition 90 90) = (90, 0) ∧
    |(pickToGeo (markerPosition 90 90)).2 - 90| > 1 / 1000000 := by
  have hm : markerPosition 90 90 = ⟨0, 101 / 50, 0⟩ := by
    rw [markerPosition, show (90 - (90:ℝ)) * Real.pi / 180 = 0 from by ring]
    simp
  have hval : pickToGeo (markerPosition 90 90) = (90, 0) := by
    rw [hm]
    have hn : norm3 ⟨0, 101 / 50, 0⟩ = 101 / 50 := by
      rw [norm3,
        show ((0:ℝ)^2 + (101/50)^2 + 0^2) = (101/50)^2 from by norm_num,
        Real.sqrt_sq (by norm_num)]
    rw [pickToGeo, normalize3, if_neg (by rw [hn]; norm_num), hn]
    simp only
    rw [show (101 / 50 : ℝ) / (101 / 50) = 1 from by norm_num,
      show (0:ℝ) / (101 / 50) = 0 from by norm_num,
      Real.arccos_one, atan2_zero_zero]
    norm_num
  refine ⟨hval, ?_⟩
  rw [hval]
  norm_num

/-- C6 counterexample: a degenerate (zero-length) pick point is not
discarded — `handlePointerDown` still emits a coordinate. -/
theorem degenerate_pick_emitted :
    handlePointerDown true ⟨0, 0, 0⟩ ≠ none := by
  simp [handlePointerDown]

/-- C6 amended: there is no degenerate-geometry check; whenever the
earth group exists, every pick — including a zero-length point — emits
a coordinate.  The Three.js `normalize` guard leaves the zero vector
unchanged, so the zero-length pick produces the finite pair
lat = 0, lon = 0 (no NaN arises: `acos 0 = π/2` and
`atan2 0 0 = 0`) instead of being discarded. -/
theorem degenerate_pick_value :
    handlePointerDown true ⟨0, 0, 0⟩ = some (0, 0) ∧
    (∀ p : Vec3, handlePointerDown true p = some (pickToGeo p)) ∧
    normalize3 ⟨0, 0, 0⟩ = ⟨0, 0, 0⟩ := by
  have hn : norm3 ⟨0, 0, 0⟩ = 0 := by
    rw [norm3]
    norm_num
  have hnorm : normalize3 (⟨0, 0, 0⟩ : Vec3) = ⟨0, 0, 0⟩ := by
    rw [normalize3, if_pos hn]
  refine ⟨?_, fun p => rfl, hnorm⟩
  rw [handlePointerDown, if_pos rfl, Option.some.injEq, pickToGeo, hnorm]
  simp only
  rw [Real.arccos_zero, atan2_zero_zero, Prod.mk.injEq]
  constructor
  · rw [show Real.pi / 2 * 180 / Real.pi = 90 * (Real.pi / Real.pi) from by
      ring, div_self Real.pi_ne_zero]
    norm_num
  · norm_num

end HoloEarth
